import Mathlib

/-!
Verification of the emap indexed-store engine (package `emap`).

The development shallowly embeds the Go source:
* the Core Engine helpers `insert`, `fetchByKey`, `fetchByIndex`,
  `deleteByKey`, `deleteByIndex`, `addIndex`, `removeIndex`, `transform`
  (emap.go, the plain functions over the three maps);
* the type-checked variant `StrictEMap` (strict_emap.go);
* the lock-guarded / expiring variant `GenericEMap` (generic_emap.go,
  expirable_emap.go) — locking and the background reaper goroutine are
  concurrency and stay outside the embedding; the `interval` field and the
  launch decision of the reaper are modelled explicitly.

Go maps are modelled as association lists (`mapGet`/`mapSet`/`mapDel`).
Go slices need care: `deleteByKey` ranges over the slice header of
`keyStore[key]` captured once, while the `removeIndex` calls inside the
loop shrink that very slice in place (`append(s[:i], s[i+1:]...)` writes
through the shared backing array).  The embedding therefore models the
backing array of the slice being iterated (`Slice`, `sliceRemove`) so the
loop reads exactly what the Go loop reads.  `deleteByIndex` has the same
aliasing on `indexStore[index]` and is modelled the same way.
-/

/-- Equality of `Except` results is decidable when both components are;
used to evaluate the engine on concrete inputs. -/
instance {ε σ : Type} [DecidableEq ε] [DecidableEq σ] :
    DecidableEq (Except ε σ) := fun x y =>
  match x, y with
  | .ok a, .ok b =>
    if h : a = b then isTrue (by rw [h]) else isFalse (by simp [h])
  | .error a, .error b =>
    if h : a = b then isTrue (by rw [h]) else isFalse (by simp [h])
  | .ok _, .error _ => isFalse (by simp)
  | .error _, .ok _ => isFalse (by simp)

namespace EMap

variable {α : Type} {β : Type} [DecidableEq α]

/-- Lookup in a Go map modelled as an association list (`m[k]`). -/
def mapGet (m : List (α × β)) (k : α) : Option β :=
  match m with
  | [] => none
  | (a, b) :: rest => if a = k then some b else mapGet rest k

/-- Assignment `m[k] = v` on a Go map modelled as an association list. -/
def mapSet (m : List (α × β)) (k : α) (v : β) : List (α × β) :=
  match m with
  | [] => [(k, v)]
  | (a, b) :: rest => if a = k then (k, v) :: rest else (a, b) :: mapSet rest k v

/-- `delete(m, k)` on a Go map modelled as an association list. -/
def mapDel (m : List (α × β)) (k : α) : List (α × β) :=
  match m with
  | [] => []
  | (a, b) :: rest => if a = k then rest else (a, b) :: mapDel rest k

/-- Removal of the first occurrence of `x` from a list: the effect of the
`for i, each := ...` / shift / `break` pattern used by `removeIndex` on the
live part of a slice. -/
def removeFirst (l : List α) (x : α) : List α :=
  match l with
  | [] => []
  | a :: rest => if a = x then rest else a :: removeFirst rest x

/-- The three co-maintained mappings of one emap instance:
`valueStore` (key → value), `keyStore` (key → indices),
`indexStore` (index → keys).  Keys, values and indices are all Go
`interface{}` values, hence a single type `α`. -/
structure EMapState (α : Type) where
  values : List (α × α)
  keys : List (α × List α)
  indices : List (α × List α)
deriving DecidableEq, Repr

/-- A freshly constructed emap: three empty maps. -/
def EMapState.empty : EMapState α := ⟨[], [], []⟩

/-- The body of `insert`'s per-index loop: append `key` to
`indexStore[index]`, creating the entry when absent. -/
def indexAdd (m : List (α × List α)) (index key : α) : List (α × List α) :=
  match mapGet m index with
  | some ks => mapSet m index (ks ++ [key])
  | none => mapSet m index [key]

/-- `insert` (emap.go): reject a duplicate key, otherwise record
`keyStore[key] = indices`, `valueStore[key] = value` and append the key
to every index's key list. -/
def insert (st : EMapState α) (key value : α) (idxs : List α) :
    Except String (EMapState α) :=
  if (mapGet st.keys key).isSome then
    .error "key duplicte"
  else
    .ok { values := mapSet st.values key value
          keys := mapSet st.keys key idxs
          indices := idxs.foldl (fun acc index => indexAdd acc index key) st.indices }

/-- `fetchByKey` (emap.go). -/
def fetchByKey (st : EMapState α) (key : α) : Except String α :=
  match mapGet st.values key with
  | some v => .ok v
  | none => .error "key not exist"

/-- `fetchByIndex` (emap.go): the values of every key under the index, in
key-list order.  A key missing from `valueStore` yields Go's zero value
`nil`, modelled as `none`. -/
def fetchByIndex (st : EMapState α) (index : α) :
    Except String (List (Option α)) :=
  match mapGet st.indices index with
  | some ks => .ok (ks.map (fun k => mapGet st.values k))
  | none => .error "index not exist"

/-- `addIndex` (emap.go). -/
def addIndex (st : EMapState α) (key index : α) : Except String (EMapState α) :=
  match mapGet st.keys key with
  | none => .error "key not exist"
  | some l =>
    if l.any (fun each => decide (each = index)) then
      .error "index duplicte"
    else
      .ok { st with keys := mapSet st.keys key (l ++ [index])
                    indices := indexAdd st.indices index key }

/-- The `indexStore` half of `removeIndex`: remove `key` from
`indexStore[index]` and delete the entry when its list becomes empty. -/
def indexRemoveKey (m : List (α × List α)) (index key : α) :
    List (α × List α) :=
  match mapGet m index with
  | none => m
  | some ks =>
    let ks' := removeFirst ks key
    if ks'.isEmpty then mapDel m index else mapSet m index ks'

/-- `removeIndex` (emap.go), as called on its own (the public
`RemoveIndex`): key existence is checked before index existence; then the
pairing is removed from both lists, deleting the index entry if its key
list becomes empty. -/
def removeIndex (st : EMapState α) (key index : α) :
    Except String (EMapState α) :=
  match mapGet st.keys key with
  | none => .error "key not exist"
  | some kIndices =>
    match mapGet st.indices index with
    | none => .error "index not exist"
    | some _ =>
      .ok { st with keys := mapSet st.keys key (removeFirst kIndices index)
                    indices := indexRemoveKey st.indices index key }

/-- A Go slice together with its backing array: `arr` is the contents of
the whole backing array, `len` the slice's current length; the live
elements are `arr.take len`.  Shrinking removals keep the backing array's
length unchanged, which is what a stale slice header captured by a `range`
loop continues to read. -/
structure Slice (α : Type) where
  arr : List α
  len : Nat
deriving DecidableEq, Repr

/-- The live elements of a slice. -/
def Slice.live (s : Slice α) : List α := s.arr.take s.len

/-- In-place removal of the first occurrence of `x` from the slice, exactly
as `append(s[:i], s[i+1:]...)` does it: elements after position `i` shift
left by one inside the backing array, the element at the old last live
position is left behind as garbage, and the length drops by one. -/
def sliceRemove (s : Slice α) (x : α) : Slice α :=
  match s.live.findIdx? (fun a => decide (a = x)) with
  | none => s
  | some i =>
    { arr := s.arr.take i ++ (s.arr.drop (i + 1)).take (s.len - 1 - i)
               ++ s.arr.drop (s.len - 1)
      len := s.len - 1 }

/-- One call of `removeIndex(keyStore, indexStore, key, index)` as issued
from inside `deleteByKey`'s loop.  `sk` is the backing slice of
`keyStore[key]` (the one the loop's stale header aliases); `w`, when
present, is the backing slice of `indexStore[wi]` for the index a
surrounding `deleteByIndex` is iterating.  The map entries are kept in
lockstep with the tracked slices.  `key` is present in `keyStore`
throughout the loop, so the function only mirrors the index-existence
early return. -/
def rmStep (st : EMapState α) (key index : α) (sk : Slice α)
    (w : Option (α × Slice α)) :
    EMapState α × Slice α × Option (α × Slice α) :=
  if (mapGet st.indices index).isNone then
    (st, sk, w)
  else
    let sk' := sliceRemove sk index
    let st1 : EMapState α := { st with keys := mapSet st.keys key sk'.live }
    match w with
    | some (wi, sw) =>
      if index = wi then
        let sw' := sliceRemove sw key
        let st2 : EMapState α :=
          { st1 with indices :=
              if sw'.live.isEmpty then mapDel st1.indices wi
              else mapSet st1.indices wi sw'.live }
        (st2, sk', some (wi, sw'))
      else
        ({ st1 with indices := indexRemoveKey st1.indices index key }, sk', w)
    | none =>
      ({ st1 with indices := indexRemoveKey st1.indices index key }, sk', w)

/-- The `for _, index := range keyStore[key]` loop of `deleteByKey`.
`L` is the length captured by the range header; `r` counts the remaining
iterations (the current position is `L - r`); `sk` is the backing slice the
header aliases, which the `rmStep` calls mutate. -/
def delKeyLoop (key : α) (L : Nat) :
    Nat → EMapState α → Slice α → Option (α × Slice α) →
    EMapState α × Option (α × Slice α)
  | 0, st, _, w => (st, w)
  | r + 1, st, sk, w =>
    match sk.arr.get? (L - (r + 1)) with
    | none => delKeyLoop key L r st sk w
    | some index =>
      let res := rmStep st key index sk w
      delKeyLoop key L r res.1 res.2.1 res.2.2

/-- `deleteByKey` (emap.go), with an optional tracked index slice `w` for a
surrounding `deleteByIndex` loop: fail on an absent key, otherwise run the
aliased removal loop and erase the key from `keyStore` and `valueStore`. -/
def deleteByKeyT (st : EMapState α) (key : α) (w : Option (α × Slice α)) :
    Except String (EMapState α × Option (α × Slice α)) :=
  match mapGet st.keys key with
  | none => .error "key not exist"
  | some l =>
    let res := delKeyLoop key l.length l.length st ⟨l, l.length⟩ w
    .ok ({ res.1 with keys := mapDel res.1.keys key
                      values := mapDel res.1.values key }, res.2)

/-- The public `deleteByKey` (emap.go). -/
def deleteByKey (st : EMapState α) (key : α) : Except String (EMapState α) :=
  match deleteByKeyT st key none with
  | .ok res => .ok res.1
  | .error e => .error e

/-- The `for _, key := range indexStore[index]` loop of `deleteByIndex`.
`M` is the captured length, `sw` the backing slice of `indexStore[index]`
that the inner `deleteByKey` calls mutate through `removeIndex`.  A
`deleteByKey` failure ("key not exist", for a stale duplicate in the
garbage part) is ignored, as in the source. -/
def delIdxLoop (index : α) (M : Nat) :
    Nat → EMapState α → Slice α → EMapState α × Slice α
  | 0, st, sw => (st, sw)
  | r + 1, st, sw =>
    match sw.arr.get? (M - (r + 1)) with
    | none => delIdxLoop index M r st sw
    | some key =>
      match deleteByKeyT st key (some (index, sw)) with
      | .error _ => delIdxLoop index M r st sw
      | .ok (st', some (_, sw')) => delIdxLoop index M r st' sw'
      | .ok (st', none) => delIdxLoop index M r st' sw

/-- `deleteByIndex` (emap.go): fail on an absent index, otherwise invoke
`deleteByKey` for every key the captured slice header yields. -/
def deleteByIndex (st : EMapState α) (index : α) :
    Except String (EMapState α) :=
  match mapGet st.indices index with
  | none => .error "index not exist"
  | some l =>
    .ok (delIdxLoop index l.length l.length st ⟨l, l.length⟩).1

/-- `HasKey` (generic_emap.go). -/
def hasKey (st : EMapState α) (key : α) : Bool :=
  (mapGet st.keys key).isSome

/-- `HasIndex` (generic_emap.go). -/
def hasIndex (st : EMapState α) (index : α) : Bool :=
  (mapGet st.indices index).isSome

/-- `KeyNumOfIndex` (generic_emap.go): the length of the index's key
list, `0` when the index is absent. -/
def keyNumOfIndex (st : EMapState α) (index : α) : Nat :=
  match mapGet st.indices index with
  | some ks => ks.length
  | none => 0

/-- `IndexNumOfKey` (generic_emap.go). -/
def indexNumOfKey (st : EMapState α) (key : α) : Nat :=
  match mapGet st.keys key with
  | some l => l.length
  | none => 0

/-- `transform` (emap.go): apply the callback to every stored pair; the
first error aborts the pass and discards the partial output (the Go code
returns `nil` for the map); on success the fresh map of transformed pairs
is returned.  The function reads `valueStore` and never writes any of the
three maps, which the type records. -/
def transform (values : List (α × α)) (fn : α → α → Except String α) :
    Except String (List (α × α)) :=
  match values with
  | [] => .ok []
  | (k, v) :: rest =>
    match fn k v with
    | .error e => .error e
    | .ok w =>
      match transform rest fn with
      | .error e => .error e
      | .ok m => .ok ((k, w) :: m)

/-- The key list of an index, empty when absent. -/
def idxList (st : EMapState α) (index : α) : List α :=
  (mapGet st.indices index).getD []

/-- Data-model invariants I1–I4 of spec §3, as a Boolean check over a
state (the property the claims assert about the code's states):
I1 `values` and `keys` have identical key sets; I2 for every key `k` and
`i ∈ keys[k]`, `k` appears exactly once in `indices[i]` and `i` exactly
once in `keys[k]`; I3 for every index `i` and `k ∈ indices[i]`, `i`
appears exactly once in `keys[k]` and `k` exactly once in `indices[i]`;
I4 no index entry has an empty key list. -/
def emapCheck (st : EMapState α) : Bool :=
  st.values.all (fun p => (mapGet st.keys p.1).isSome) &&
  st.keys.all (fun p => (mapGet st.values p.1).isSome) &&
  st.keys.all (fun p =>
    p.2.all (fun i =>
      decide ((idxList st i).count p.1 = 1) && decide (p.2.count i = 1))) &&
  st.indices.all (fun p =>
    p.2.all (fun k =>
      decide (((mapGet st.keys k).getD []).count p.1 = 1) &&
      decide (p.2.count k = 1))) &&
  st.indices.all (fun p => !p.2.isEmpty)

/-- `reflect.Kind` of a Go value, as used by the Type Guard. -/
inductive GoKind where
  | bool
  | int | int8 | int16 | int32 | int64
  | uint | uint8 | uint16 | uint32 | uint64 | uintptr
  | float32 | float64 | complex64 | complex128
  | array | chan | func' | interface' | map' | ptr | slice
  | string' | struct' | unsafePointer
deriving DecidableEq, Repr

/-- `isTypeSupported` (strict_emap.go): the current blacklist form —
`Bool`, `Uintptr` and every composite/pointer/reference kind are
rejected, everything else is accepted. -/
def isTypeSupported (kind : GoKind) : Bool :=
  if kind = .bool ∨ kind = .uintptr ∨ kind = .array ∨ kind = .chan ∨
      kind = .func' ∨ kind = .interface' ∨ kind = .map' ∨ kind = .ptr ∨
      kind = .slice ∨ kind = .struct' ∨ kind = .unsafePointer then
    false
  else
    true

/-- A Go `interface{}` value as the variants observe it through
reflection: its kind, its reflected type name (meaningful for struct
kinds), an opaque payload, and whether its method set contains
`IsExpired` (the capability probed by the expiring variant).  Go `==`
compares dynamic type and value, modelled by structural equality. -/
structure GoVal where
  kind : GoKind
  typeName : String
  payload : Nat
  hasIsExpired : Bool
deriving DecidableEq, Repr

/-- `StrictEMap` (strict_emap.go): the three maps plus the kinds recorded
from the construction samples. -/
structure StrictEMap where
  core : EMapState GoVal
  keyType : GoKind
  indexType : GoKind
  valueType : GoKind
  valueStruct : String
deriving DecidableEq, Repr

/-- `NewStrictEMap` (strict_emap.go): extract the three sample kinds,
reject unsupported key/index kinds, record the struct name when the value
sample is a struct (Go's zero value `""` otherwise). -/
def newStrictEMap (keySample valueSample indexSample : GoVal) :
    Except String StrictEMap :=
  if ¬ isTypeSupported keySample.kind ∨ ¬ isTypeSupported indexSample.kind then
    .error "key or index type not supported"
  else
    .ok { core := EMapState.empty
          keyType := keySample.kind
          indexType := indexSample.kind
          valueType := valueSample.kind
          valueStruct :=
            if valueSample.kind = .struct' then valueSample.typeName else "" }

namespace StrictEMap

/-- `StrictEMap.HasKey`: wrong-kind keys answer `false` without error. -/
def hasKey (m : StrictEMap) (key : GoVal) : Bool :=
  if m.keyType ≠ key.kind then false
  else (mapGet m.core.keys key).isSome

/-- `StrictEMap.HasIndex`: wrong-kind indices answer `false`. -/
def hasIndex (m : StrictEMap) (index : GoVal) : Bool :=
  if m.indexType ≠ index.kind then false
  else (mapGet m.core.indices index).isSome

/-- `StrictEMap.KeyNumOfIndex`: no kind check in the source; an absent
index answers `0`. -/
def keyNumOfIndex (m : StrictEMap) (index : GoVal) : Nat :=
  match mapGet m.core.indices index with
  | some ks => ks.length
  | none => 0

/-- `StrictEMap.IndexNumOfKey`: wrong-kind keys answer `0`. -/
def indexNumOfKey (m : StrictEMap) (key : GoVal) : Nat :=
  if m.keyType ≠ key.kind then 0
  else
    match mapGet m.core.keys key with
    | some l => l.length
    | none => 0

/-- `StrictEMap.Insert`: check the key kind, every index kind, the value
kind and (for struct values) the struct type name, then delegate to the
engine's `insert`. -/
def insert (m : StrictEMap) (key value : GoVal) (idxs : List GoVal) :
    Except String StrictEMap :=
  if m.keyType ≠ key.kind then .error "key type wrong"
  else if idxs.any (fun index => decide (m.indexType ≠ index.kind)) then
    .error "index type wrong"
  else if m.valueType ≠ value.kind then .error "value type wrong"
  else if m.valueType = .struct' ∧ m.valueStruct ≠ value.typeName then
    .error "struct type wrong"
  else
    (EMap.insert m.core key value idxs).map (fun c => { m with core := c })

/-- `StrictEMap.FetchByKey`: kind check, then the engine fetch. -/
def fetchByKey (m : StrictEMap) (key : GoVal) : Except String GoVal :=
  if m.keyType ≠ key.kind then .error "key type wrong"
  else EMap.fetchByKey m.core key

/-- `StrictEMap.FetchByIndex`: kind check, then the engine fetch. -/
def fetchByIndex (m : StrictEMap) (index : GoVal) :
    Except String (List (Option GoVal)) :=
  if m.indexType ≠ index.kind then .error "index type wrong"
  else EMap.fetchByIndex m.core index

/-- `StrictEMap.DeleteByKey` (strict_emap.go lines 223–228): the source
performs no kind check here and delegates straight to the engine. -/
def deleteByKey (m : StrictEMap) (key : GoVal) : Except String StrictEMap :=
  (EMap.deleteByKey m.core key).map (fun c => { m with core := c })

/-- `StrictEMap.DeleteByIndex`: kind check, then the engine delete. -/
def deleteByIndex (m : StrictEMap) (index : GoVal) :
    Except String StrictEMap :=
  if m.indexType ≠ index.kind then .error "index type wrong"
  else (EMap.deleteByIndex m.core index).map (fun c => { m with core := c })

/-- `StrictEMap.AddIndex`: key kind first, then index kind, then the
engine. -/
def addIndex (m : StrictEMap) (key index : GoVal) :
    Except String StrictEMap :=
  if m.keyType ≠ key.kind then .error "key type wrong"
  else if m.indexType ≠ index.kind then .error "index type wrong"
  else (EMap.addIndex m.core key index).map (fun c => { m with core := c })

/-- `StrictEMap.RemoveIndex` (strict_emap.go lines 264–277): key kind
checked before index kind, then the engine. -/
def removeIndex (m : StrictEMap) (key index : GoVal) :
    Except String StrictEMap :=
  if m.keyType ≠ key.kind then .error "key type wrong"
  else if m.indexType ≠ index.kind then .error "index type wrong"
  else (EMap.removeIndex m.core key index).map (fun c => { m with core := c })

end StrictEMap

/-- `GenericEMap` (generic_emap.go): the lock-guarded variant.  The
reader/writer mutex is concurrency and not part of the embedding;
`interval` is the reaper period recorded by `NewExpirableEMap`, and
`reaperStarted` records whether the constructor executed
`go instance.collect(interval)`. -/
structure GenericEMap where
  interval : Int
  reaperStarted : Bool
  core : EMapState GoVal
deriving DecidableEq, Repr

/-- `NewGenericEMap`: empty maps, `interval` left at its zero value, no
reaper. -/
def newGenericEMap : GenericEMap :=
  { interval := 0, reaperStarted := false, core := EMapState.empty }

/-- `NewExpirableEMap` (expirable_emap.go lines 25–37): empty maps; only
for a positive interval is the interval recorded and the collector task
launched. -/
def newExpirableEMap (interval : Int) : GenericEMap :=
  if interval > 0 then
    { interval := interval, reaperStarted := true, core := EMapState.empty }
  else
    { interval := 0, reaperStarted := false, core := EMapState.empty }

/-- `GenericEMap.Insert` (generic_emap.go lines 319–330): when an
expiration interval is set, a value whose method set lacks `IsExpired` is
rejected before the engine is reached; otherwise the engine `insert`
runs. -/
def GenericEMap.insert (m : GenericEMap) (key value : GoVal)
    (idxs : List GoVal) : Except String GenericEMap :=
  if m.interval > 0 ∧ ¬ value.hasIsExpired then .error "value type wrong"
  else (EMap.insert m.core key value idxs).map (fun c => { m with core := c })

/-!  Concrete runs used by the counterexamples and the failing-input
evaluations below. -/

/-- `Insert("key1", v, "index1", "index2", "index3")` followed by
`DeleteByKey("key1")`, on an empty store (keys/indices encoded as
naturals: key 1, value 10, indices 2, 3, 4).  This is the scenario of the
repository's own debug test `Fix the unconsistency caused by
deleteByKey`. -/
def runDeleteKey3 : Except String (EMapState Nat) := do
  let s1 ← insert EMapState.empty 1 10 [2, 3, 4]
  deleteByKey s1 1

/-- Three keys (1, 2, 3 with values 10, 20, 30) inserted under the single
shared index 7, then `DeleteByIndex(7)`. -/
def runDeleteIndex3 : Except String (EMapState Nat) := do
  let s1 ← insert EMapState.empty 1 10 [7]
  let s2 ← insert s1 2 20 [7]
  let s3 ← insert s2 3 30 [7]
  deleteByIndex s3 7

/-- Two keys carrying the same value 7 under the shared index 2; the
second insert also attaches index 4.  Returns whether key 3 was present
before its insert, and how often value 7 occurs in `FetchByIndex(2)`. -/
def runC4 : Except String (Bool × Nat) := do
  let s1 ← insert (EMapState.empty (α := Nat)) 1 7 [2]
  let s2 ← insert s1 3 7 [2, 4]
  let l ← fetchByIndex s2 2
  pure (hasKey s1 3, l.count (some 7))

/-- `Insert(1, 7, 2, 2)` — the same index repeated in one call — on an
empty store; returns `KeyNumOfIndex(2)` and the number of occurrences of
value 7 in `FetchByIndex(2)`. -/
def runC5 : Except String (Nat × Nat) := do
  let s1 ← insert (EMapState.empty (α := Nat)) 1 7 [2, 2]
  let l ← fetchByIndex s1 2
  pure (keyNumOfIndex s1 2, l.count (some 7))

/-- A string-kinded key sample. -/
def sampleKey : GoVal := ⟨.string', "string", 0, false⟩

/-- A struct-kinded value sample named `testStruct`. -/
def sampleVal : GoVal := ⟨.struct', "testStruct", 0, false⟩

/-- An int-kinded index sample. -/
def sampleIdx : GoVal := ⟨.int, "int", 0, false⟩

/-- The strict-emap scenario of the repository's type-check test:
`NewStrictEMap("key", testStruct{...}, 123)`, one `Insert`, then
`DeleteByKey(123)` with an int key against the recorded string kind.
Returns the error message of that `DeleteByKey`. -/
def runC7 : Except String String := do
  let m ← newStrictEMap sampleKey sampleVal sampleIdx
  let m1 ← m.insert ⟨.string', "string", 1, false⟩
      ⟨.struct', "testStruct", 5, false⟩ [⟨.int, "int", 123, false⟩]
  match m1.deleteByKey ⟨.int, "int", 123, false⟩ with
  | .error e => pure e
  | .ok _ => pure (toString 0)

/-- Every key stored in the strict emap has the recorded key kind.  This
holds for every store reached through the strict operations, whose
mutating entry points all kind-check the key before touching the maps. -/
def keysWellKinded (m : StrictEMap) : Prop :=
  ∀ p ∈ m.core.keys, p.1.kind = m.keyType

/-- Every index entry of the strict emap has the recorded index kind. -/
def indicesWellKinded (m : StrictEMap) : Prop :=
  ∀ p ∈ m.core.indices, p.1.kind = m.indexType

/-- A string-kinded Go value with payload `n`. -/
def goStr (n : Nat) : GoVal := ⟨.string', "string", n, false⟩

/-- An int-kinded Go value with payload `n`. -/
def goInt (n : Nat) : GoVal := ⟨.int, "int", n, false⟩

/-- An empty strict emap with string keys, int indices and struct values,
as produced by `NewStrictEMap("key", testStruct{...}, 123)`. -/
def strictSample : StrictEMap :=
  { core := EMapState.empty
    keyType := .string'
    indexType := .int
    valueType := .struct'
    valueStruct := "testStruct" }

/-- A transform callback incrementing every stored value. -/
def incFn : Nat → Nat → Except String Nat := fun _ v => .ok (v + 1)

/-- A store holding key 5 with index list `[9]` but no entry for index 9
(key present, index absent). -/
def stKeyOnly : EMapState Nat := ⟨[], [(5, [9])], []⟩

/-- A store holding key 5 (value 50) under index 9, both present. -/
def stKeyIdx : EMapState Nat := ⟨[(5, 50)], [(5, [9])], [(9, [5])]⟩

end EMap

namespace EMap

/-!  ## Map lemmas -/

theorem mapGet_mapSet_self {α β : Type} [DecidableEq α]
    (m : List (α × β)) (k : α) (v : β) :
    mapGet (mapSet m k v) k = some v := by
  induction m with
  | nil => simp [mapSet, mapGet]
  | cons p rest ih =>
    obtain ⟨a, b⟩ := p
    by_cases h : a = k <;> simp [mapSet, mapGet, h, ih]

theorem mapGet_mapSet_ne {α β : Type} [DecidableEq α]
    (m : List (α × β)) (k k' : α) (v : β) (h : k' ≠ k) :
    mapGet (mapSet m k v) k' = mapGet m k' := by
  induction m with
  | nil => simp [mapSet, mapGet, Ne.symm h]
  | cons p rest ih =>
    obtain ⟨a, b⟩ := p
    by_cases ha : a = k
    · subst ha
      simp [mapSet, mapGet, Ne.symm h]
    · simp [mapSet, mapGet, ha, ih]

theorem mapGet_indexAdd_self {α : Type} [DecidableEq α]
    (m : List (α × List α)) (i k : α) :
    mapGet (indexAdd m i k) i = some ((mapGet m i).getD [] ++ [k]) := by
  unfold indexAdd
  cases h : mapGet m i <;> simp [h, mapGet_mapSet_self]

theorem mapGet_indexAdd_ne {α : Type} [DecidableEq α]
    (m : List (α × List α)) (i k j : α) (h : j ≠ i) :
    mapGet (indexAdd m i k) j = mapGet m j := by
  unfold indexAdd
  cases hm : mapGet m i <;> simp [mapGet_mapSet_ne _ _ _ _ h]

theorem mapGet_eq_none_of_kind_ne {β : Type}
    (m : List (GoVal × β)) (x : GoVal)
    (h : ∀ p ∈ m, p.1.kind ≠ x.kind) : mapGet m x = none := by
  induction m with
  | nil => rfl
  | cons p rest ih =>
    obtain ⟨a, b⟩ := p
    have hne : a ≠ x := by
      intro he
      exact h (a, b) (List.mem_cons_self _ _) (by rw [he])
    simp only [mapGet, if_neg hne]
    exact ih (fun q hq => h q (List.mem_cons_of_mem _ hq))

/-!  ## Claim theorems -/

/-- C1: the claim states that after every sequence of public operations
from the empty store the invariants I1–I4 hold.  It fails: after
`Insert(k, v, i1, i2, i3)` and `DeleteByKey(k)` — both completed
operations — the invariant check is false, because `deleteByKey` iterates
the stale slice header of `keyStore[key]` while `removeIndex` shifts the
backing array, so index `i2` (here 3) is skipped and keeps the deleted
key in its key list, violating I2/I3. -/
theorem c1_invariants_violated_after_deleteByKey :
    runDeleteKey3.map emapCheck = Except.ok false := by decide

/-- C2: the claim states that after a successful `DeleteByKey(k)` the key
is gone from every index's key list.  At the same failing input the
operation succeeds and removes `k` from `values` and `keys`, yet index 3
still lists `k` — the cleanup of the key's indices is incomplete. -/
theorem c2_deleteByKey_leaves_dangling_key :
    runDeleteKey3.map
      (fun st => (mapGet st.values 1, mapGet st.keys 1, idxList st 3))
    = Except.ok (none, none, [1]) := by decide

/-- C3: the claim states that a successful `DeleteByIndex(i)` removes
every key that was under `i` and leaves `HasIndex(i)` false.  With three
keys under the one index 7 the call succeeds but the second key (2, value
20) survives and `HasIndex(7)` stays true: the loop ranges over the stale
slice header of `indexStore[index]` while the cascaded `DeleteByKey`
calls shift it. -/
theorem c3_deleteByIndex_leaves_keys_behind :
    runDeleteIndex3.map
      (fun st => (hasKey st 2, hasIndex st 7, mapGet st.values 2))
    = Except.ok (true, true, some 20) := by decide

/-- C4 counterexample: the claim quantifies over every store not
containing `k` and every `v`, `i1`, `i2`, but `FetchByIndex` counts
values, so when another key under `i1` already has the same value the
sequence contains `v` twice.  Concretely: after `Insert(1, 7, 2)`, the
store does not contain key 3, `Insert(3, 7, 2, 4)` succeeds, and
`FetchByIndex(2)` contains value 7 twice, not exactly once. -/
theorem c4_value_collision_counterexample :
    runC4 = Except.ok (false, 2) := by decide

/-- C5 counterexample: the claim says `Insert(k, v, i, i)` is
indistinguishable from `Insert(k, v, i)`, in particular
`KeyNumOfIndex(i) = 1` and `FetchByIndex(i)` contains `v` exactly once.
The engine appends the key once per occurrence: both counts are 2. -/
theorem c5_duplicate_index_counterexample :
    runC5 = Except.ok (2, 2) := by decide

/-- C7 counterexample: the claim says `DeleteByKey` on the type-checked
store surfaces a wrong-kind key as an explicit type-mismatch error, not a
not-found error.  `StrictEMap.DeleteByKey` performs no kind check and
returns the engine's `"key not exist"` for an int key against a
string-kinded store. -/
theorem c7_deleteByKey_returns_not_found :
    runC7 = Except.ok "key not exist" := by decide

/-- C8 counterexample: the claim says construction succeeds for all
primitive/scalar kinds including boolean.  A bool key sample is rejected
with the unsupported-type error. -/
theorem c8_bool_rejected :
    newStrictEMap ⟨.bool, "bool", 0, false⟩ ⟨.struct', "testStruct", 0, false⟩
      ⟨.int, "int", 0, false⟩ = .error "key or index type not supported" := by
  decide

/-- C4 (amended): on a store not containing `k`, with `i1 ≠ i2`, `k` not
already listed under `i1` or `i2` (automatic when the invariants hold),
and `v` not the value of any key already under `i1` or `i2`,
`Insert(k, v, i1, i2)` succeeds, `FetchByKey(k)` returns `v`, and
`FetchByIndex(i1)` and `FetchByIndex(i2)` each contain `v` exactly
once. -/
theorem c4_insert_round_trip {α : Type} [DecidableEq α]
    (st : EMapState α) (k v i1 i2 : α)
    (hk : mapGet st.keys k = none) (h12 : i1 ≠ i2)
    (hm1 : k ∉ idxList st i1) (hm2 : k ∉ idxList st i2)
    (hv1 : ∀ k' ∈ idxList st i1, mapGet st.values k' ≠ some v)
    (hv2 : ∀ k' ∈ idxList st i2, mapGet st.values k' ≠ some v) :
    ∃ st', insert st k v [i1, i2] = .ok st' ∧
      fetchByKey st' k = .ok v ∧
      (fetchByIndex st' i1).map (fun l => l.count (some v)) = .ok 1 ∧
      (fetchByIndex st' i2).map (fun l => l.count (some v)) = .ok 1 := by
  have hins : insert st k v [i1, i2] =
      .ok { values := mapSet st.values k v
            keys := mapSet st.keys k [i1, i2]
            indices := indexAdd (indexAdd st.indices i1 k) i2 k } := by
    simp [insert, hk]
  refine ⟨_, hins, ?_, ?_, ?_⟩
  · simp [fetchByKey, mapGet_mapSet_self]
  · have hidx : mapGet (indexAdd (indexAdd st.indices i1 k) i2 k) i1 =
        some (idxList st i1 ++ [k]) := by
      rw [mapGet_indexAdd_ne _ _ _ _ h12, mapGet_indexAdd_self, idxList]
    simp only [fetchByIndex, hidx, Except.map]
    have h0 : ((idxList st i1).map
        (fun k' => mapGet (mapSet st.values k v) k')).count (some v) = 0 := by
      rw [List.count_eq_zero]
      intro hmem
      obtain ⟨k', hk', heq⟩ := List.mem_map.mp hmem
      have hne : k' ≠ k := fun he => hm1 (he ▸ hk')
      rw [mapGet_mapSet_ne _ _ _ _ hne] at heq
      exact hv1 k' hk' heq
    simp [List.count_append, h0, mapGet_mapSet_self]
  · have hidx : mapGet (indexAdd (indexAdd st.indices i1 k) i2 k) i2 =
        some (idxList st i2 ++ [k]) := by
      rw [mapGet_indexAdd_self, mapGet_indexAdd_ne _ _ _ _ (Ne.symm h12),
        idxList]
    simp only [fetchByIndex, hidx, Except.map]
    have h0 : ((idxList st i2).map
        (fun k' => mapGet (mapSet st.values k v) k')).count (some v) = 0 := by
      rw [List.count_eq_zero]
      intro hmem
      obtain ⟨k', hk', heq⟩ := List.mem_map.mp hmem
      have hne : k' ≠ k := fun he => hm2 (he ▸ hk')
      rw [mapGet_mapSet_ne _ _ _ _ hne] at heq
      exact hv2 k' hk' heq
    simp [List.count_append, h0, mapGet_mapSet_self]

/-- C5 (amended): `Insert(k, v, i, i)` with the same index repeated is not
indistinguishable from a single addition: the engine records the index
once per occurrence, so `keys→indices[k] = [i, i]`, `KeyNumOfIndex(i)`
grows by two, and `FetchByIndex(i)` contains `v` exactly twice (under the
same freshness conditions as the round trip). -/
theorem c5_insert_duplicate_index {α : Type} [DecidableEq α]
    (st : EMapState α) (k v i : α)
    (hk : mapGet st.keys k = none)
    (hm : k ∉ idxList st i)
    (hv : ∀ k' ∈ idxList st i, mapGet st.values k' ≠ some v) :
    ∃ st', insert st k v [i, i] = .ok st' ∧
      mapGet st'.keys k = some [i, i] ∧
      keyNumOfIndex st' i = (idxList st i).length + 2 ∧
      (fetchByIndex st' i).map (fun l => l.count (some v)) = .ok 2 := by
  have hins : insert st k v [i, i] =
      .ok { values := mapSet st.values k v
            keys := mapSet st.keys k [i, i]
            indices := indexAdd (indexAdd st.indices i k) i k } := by
    simp [insert, hk]
  have hidx : mapGet (indexAdd (indexAdd st.indices i k) i k) i =
      some ((idxList st i ++ [k]) ++ [k]) := by
    rw [mapGet_indexAdd_self, mapGet_indexAdd_self, idxList]
    simp
  refine ⟨_, hins, ?_, ?_, ?_⟩
  · simp [mapGet_mapSet_self]
  · simp [keyNumOfIndex, hidx]
  · simp only [fetchByIndex, hidx, Except.map]
    have h0 : ((idxList st i).map
        (fun k' => mapGet (mapSet st.values k v) k')).count (some v) = 0 := by
      rw [List.count_eq_zero]
      intro hmem
      obtain ⟨k', hk', heq⟩ := List.mem_map.mp hmem
      have hne : k' ≠ k := fun he => hm (he ▸ hk')
      rw [mapGet_mapSet_ne _ _ _ _ hne] at heq
      exact hv k' hk' heq
    simp [List.count_append, h0, mapGet_mapSet_self]

/-- C6: `Transform` is all-or-nothing.  If every stored pair transforms
without error, the result is a fresh mapping with the same keys sending
every stored key to the callback's new value; if some stored pair errs,
the pass aborts with an error the callback produced on a stored pair and
no result mapping.  The embedding's `transform` only reads the value
store, mirroring that the Go code never writes the three maps, so the
store is unchanged by construction. -/
theorem c6_transform_all_or_nothing {α : Type} [DecidableEq α]
    (values : List (α × α)) (fn : α → α → Except String α)
    (hnd : (values.map Prod.fst).Nodup) :
    ((∀ p ∈ values, ∃ w, fn p.1 p.2 = .ok w) →
      ∃ res, transform values fn = .ok res ∧
        res.map Prod.fst = values.map Prod.fst ∧
        ∀ p ∈ values, ∀ w, fn p.1 p.2 = .ok w → mapGet res p.1 = some w) ∧
    ((∃ p ∈ values, ∃ e, fn p.1 p.2 = .error e) →
      ∃ p ∈ values, ∃ e, fn p.1 p.2 = .error e ∧
        transform values fn = .error e) := by
  induction values with
  | nil =>
    constructor
    · intro _
      exact ⟨[], rfl, rfl, by simp⟩
    · rintro ⟨p, hp, _⟩
      cases hp
  | cons hd tl ih =>
    obtain ⟨k, v⟩ := hd
    have hk_not : k ∉ tl.map Prod.fst := (List.nodup_cons.mp hnd).1
    have hnd' : (tl.map Prod.fst).Nodup := (List.nodup_cons.mp hnd).2
    constructor
    · intro hall
      obtain ⟨w, hw⟩ := hall (k, v) (List.mem_cons_self _ _)
      obtain ⟨res', hres', hkeys', hpt'⟩ :=
        (ih hnd').1 (fun p hp => hall p (List.mem_cons_of_mem _ hp))
      refine ⟨(k, w) :: res', by simp [transform, hw, hres'], by simp [hkeys'], ?_⟩
      intro p hp w' hw'
      rcases List.mem_cons.mp hp with hph | hpt
      · subst hph
        have : w' = w := by
          rw [hw] at hw'
          exact (Except.ok.injEq _ _).mp hw'.symm
        subst this
        simp [mapGet]
      · have hne : p.1 ≠ k := by
          intro he
          exact hk_not (he ▸ List.mem_map_of_mem Prod.fst hpt)
        have hne' : ¬ (k = p.1) := fun he => hne he.symm
        simp only [mapGet, if_neg hne']
        exact hpt' p hpt w' hw'
    · rintro ⟨p, hp, e, he⟩
      cases hfk : fn k v with
      | error e0 =>
        exact ⟨(k, v), List.mem_cons_self _ _, e0, hfk, by simp [transform, hfk]⟩
      | ok w =>
        rcases List.mem_cons.mp hp with hph | hpt
        · subst hph
          rw [hfk] at he
          cases he
        · obtain ⟨q, hq, e', he', htr⟩ := (ih hnd').2 ⟨p, hpt, e, he⟩
          exact ⟨q, List.mem_cons_of_mem _ hq, e', he',
            by simp [transform, hfk, htr]⟩

/-- C7 (amended): on the type-checked store (whose stored keys and index
entries carry the recorded kinds), a wrong-kind argument makes the
presence/count accessors answer `false`/`0` without erroring, and makes
`FetchByKey`, `FetchByIndex`, `DeleteByIndex`, `AddIndex` and
`RemoveIndex` return the explicit type-mismatch error — but `DeleteByKey`
performs no kind check and returns the not-found error `"key not exist"`
instead. -/
theorem c7_type_guard_asymmetry (m : StrictEMap) (x y k i : GoVal)
    (hwk : keysWellKinded m) (hwi : indicesWellKinded m)
    (hx : x.kind ≠ m.keyType) (hy : y.kind ≠ m.indexType) :
    StrictEMap.hasKey m x = false ∧
    StrictEMap.hasIndex m y = false ∧
    StrictEMap.indexNumOfKey m x = 0 ∧
    StrictEMap.keyNumOfIndex m y = 0 ∧
    StrictEMap.fetchByKey m x = .error "key type wrong" ∧
    StrictEMap.fetchByIndex m y = .error "index type wrong" ∧
    StrictEMap.deleteByIndex m y = .error "index type wrong" ∧
    StrictEMap.addIndex m x i = .error "key type wrong" ∧
    (k.kind = m.keyType → StrictEMap.addIndex m k y = .error "index type wrong") ∧
    StrictEMap.removeIndex m x i = .error "key type wrong" ∧
    (k.kind = m.keyType → StrictEMap.removeIndex m k y = .error "index type wrong") ∧
    StrictEMap.deleteByKey m x = .error "key not exist" := by
  have hkx : mapGet m.core.keys x = none :=
    mapGet_eq_none_of_kind_ne _ _ (fun p hp => by rw [hwk p hp]; exact Ne.symm hx)
  have hiy : mapGet m.core.indices y = none :=
    mapGet_eq_none_of_kind_ne _ _ (fun p hp => by rw [hwi p hp]; exact Ne.symm hy)
  refine ⟨?_, ?_, ?_, ?_, ?_, ?_, ?_, ?_, ?_, ?_, ?_, ?_⟩
  · simp [StrictEMap.hasKey, Ne.symm hx]
  · simp [StrictEMap.hasIndex, Ne.symm hy]
  · simp [StrictEMap.indexNumOfKey, Ne.symm hx]
  · simp [StrictEMap.keyNumOfIndex, hiy]
  · simp [StrictEMap.fetchByKey, Ne.symm hx]
  · simp [StrictEMap.fetchByIndex, Ne.symm hy]
  · simp [StrictEMap.deleteByIndex, Ne.symm hy]
  · simp [StrictEMap.addIndex, Ne.symm hx]
  · intro hkk
    simp [StrictEMap.addIndex, hkk, Ne.symm hy]
  · simp [StrictEMap.removeIndex, Ne.symm hx]
  · intro hkk
    simp [StrictEMap.removeIndex, hkk, Ne.symm hy]
  · simp [StrictEMap.deleteByKey, deleteByKey, deleteByKeyT, hkx, Except.map]

/-- C8 (amended): construction of the type-checked store succeeds exactly
when both the key sample's kind and the index sample's kind are accepted
by the blacklist, and the accepted kinds are precisely the numeric kinds
(signed and unsigned integers except `uintptr`, floats, complexes) and
`string`; boolean and `uintptr` are rejected along with the composite,
pointer and reference-bearing kinds.  The value sample's kind never
influences success. -/
theorem c8_construction_characterisation (ks vs ixs : GoVal) :
    ((∃ m, newStrictEMap ks vs ixs = .ok m) ↔
      (isTypeSupported ks.kind = true ∧ isTypeSupported ixs.kind = true)) ∧
    (∀ kind : GoKind, isTypeSupported kind = true ↔
      kind ∈ ([.int, .int8, .int16, .int32, .int64,
               .uint, .uint8, .uint16, .uint32, .uint64,
               .float32, .float64, .complex64, .complex128,
               .string'] : List GoKind)) ∧
    (∀ vs' : GoVal, (∃ m, newStrictEMap ks vs' ixs = .ok m) ↔
      (∃ m, newStrictEMap ks vs ixs = .ok m)) := by
  have hchar : ∀ (v : GoVal), (∃ m, newStrictEMap ks v ixs = .ok m) ↔
      (isTypeSupported ks.kind = true ∧ isTypeSupported ixs.kind = true) := by
    intro v
    unfold newStrictEMap
    by_cases h : ¬ isTypeSupported ks.kind ∨ ¬ isTypeSupported ixs.kind
    · rw [if_pos h]
      constructor
      · rintro ⟨m', hm'⟩
        cases hm'
      · rintro ⟨h1, h2⟩
        rcases h with h | h <;> exact absurd (by assumption) h
    · rw [if_neg h]
      push_neg at h
      exact ⟨fun _ => ⟨h.1, h.2⟩, fun _ => ⟨_, rfl⟩⟩
  refine ⟨hchar vs, ?_, fun vs' => (hchar vs').trans (hchar vs).symm⟩
  intro kind
  cases kind <;> decide

/-- C9: for the expiring store the constructor records a positive
interval and launches the collector exactly then; with the interval set,
`Insert` rejects a value whose method set lacks `IsExpired` with the
capability error before the engine is reached (so no mapping is touched),
and accepts capable values through the plain engine `insert`; with a
non-positive interval the constructed store is literally the plain
lock-guarded store, whose `Insert` performs no capability check; the
engine itself can only fail with the duplicate-key error. -/
theorem c9_expirable_insert_capability (interval : Int) (k v : GoVal)
    (idxs : List GoVal) :
    (interval > 0 → (newExpirableEMap interval).interval = interval ∧
      (newExpirableEMap interval).reaperStarted = true) ∧
    (interval ≤ 0 → newExpirableEMap interval = newGenericEMap) ∧
    (interval > 0 → v.hasIsExpired = false →
      GenericEMap.insert (newExpirableEMap interval) k v idxs =
        .error "value type wrong") ∧
    (interval > 0 → v.hasIsExpired = true →
      GenericEMap.insert (newExpirableEMap interval) k v idxs =
        (insert (newExpirableEMap interval).core k v idxs).map
          (fun c => { newExpirableEMap interval with core := c })) ∧
    (GenericEMap.insert newGenericEMap k v idxs =
      (insert newGenericEMap.core k v idxs).map
        (fun c => { newGenericEMap with core := c })) ∧
    (∀ (stc : EMapState GoVal) (e : String),
      insert stc k v idxs = .error e → e = "key duplicte") := by
  refine ⟨?_, ?_, ?_, ?_, ?_, ?_⟩
  · intro hpos
    simp [newExpirableEMap, hpos]
  · intro hnonpos
    have : ¬ interval > 0 := by omega
    simp [newExpirableEMap, newGenericEMap, this]
  · intro hpos hcap
    have hint : (newExpirableEMap interval).interval = interval := by
      simp [newExpirableEMap, hpos]
    simp [GenericEMap.insert, hint, hpos, hcap]
  · intro hpos hcap
    have hint : (newExpirableEMap interval).interval = interval := by
      simp [newExpirableEMap, hpos]
    simp [GenericEMap.insert, hint, hcap]
  · simp [GenericEMap.insert, newGenericEMap]
  · intro stc e he
    unfold insert at he
    by_cases hdup : (mapGet stc.keys k).isSome <;> simp [hdup] at he
    exact he.symm

/-- C10: `RemoveIndex` validates key existence before index existence —
an absent key yields the key-not-found error whatever the index, and the
index-not-found error arises only for a present key — and on the
type-checked variant the key kind check precedes the index kind check. -/
theorem c10_removeIndex_check_order {α : Type} [DecidableEq α]
    (st1 st2 st5 : EMapState α) (k1 i1 k2 i2 k5 i5 : α)
    (l2 l5 l5' : List α) (m : StrictEMap) (x3 y3 x4 y4 : GoVal)
    (h1 : mapGet st1.keys k1 = none)
    (h2k : mapGet st2.keys k2 = some l2)
    (h2i : mapGet st2.indices i2 = none)
    (h5k : mapGet st5.keys k5 = some l5)
    (h5i : mapGet st5.indices i5 = some l5')
    (h3 : x3.kind ≠ m.keyType)
    (h4x : x4.kind = m.keyType) (h4y : y4.kind ≠ m.indexType) :
    removeIndex st1 k1 i1 = .error "key not exist" ∧
    removeIndex st2 k2 i2 = .error "index not exist" ∧
    (∃ st', removeIndex st5 k5 i5 = .ok st') ∧
    StrictEMap.removeIndex m x3 y3 = .error "key type wrong" ∧
    StrictEMap.removeIndex m x4 y4 = .error "index type wrong" := by
  refine ⟨?_, ?_, ?_, ?_, ?_⟩
  · simp [removeIndex, h1]
  · simp [removeIndex, h2k, h2i]
  · have hst : removeIndex st5 k5 i5 =
        .ok { values := st5.values
              keys := mapSet st5.keys k5 (removeFirst l5 i5)
              indices := indexRemoveKey st5.indices i5 k5 } := by
      simp [removeIndex, h5k, h5i]
    exact ⟨_, hst⟩
  · simp [StrictEMap.removeIndex, Ne.symm h3]
  · simp [StrictEMap.removeIndex, h4x, Ne.symm h4y]

/-!  ## Witnesses -/

/-- Witness for the amended round trip at a concrete input: empty store,
`Insert(1, 10, 2, 3)`. -/
theorem c4_insert_round_trip_witness :
    ∃ st', insert (EMapState.empty (α := Nat)) 1 10 [2, 3] = .ok st' ∧
      fetchByKey st' 1 = .ok 10 ∧
      (fetchByIndex st' 2).map (fun l => l.count (some 10)) = .ok 1 ∧
      (fetchByIndex st' 3).map (fun l => l.count (some 10)) = .ok 1 :=
  c4_insert_round_trip EMapState.empty 1 10 2 3 (by decide) (by decide)
    (by decide) (by decide) (by decide) (by decide)

/-- Witness for the amended duplicate-index statement at a concrete
input: empty store, `Insert(1, 10, 2, 2)`. -/
theorem c5_insert_duplicate_index_witness :
    ∃ st', insert (EMapState.empty (α := Nat)) 1 10 [2, 2] = .ok st' ∧
      mapGet st'.keys 1 = some [2, 2] ∧
      keyNumOfIndex st' 2 = (idxList (EMapState.empty (α := Nat)) 2).length + 2 ∧
      (fetchByIndex st' 2).map (fun l => l.count (some 10)) = .ok 2 :=
  c5_insert_duplicate_index EMapState.empty 1 10 2 (by decide) (by decide)
    (by decide)

/-- Witness for the transform statement at a concrete input: the value
store `{1 ↦ 2}` with an incrementing callback. -/
theorem c6_transform_witness :
    ∃ res, transform [((1 : Nat), 2)] incFn = .ok res ∧
      res.map Prod.fst = [((1 : Nat), 2)].map Prod.fst ∧
      ∀ p ∈ [((1 : Nat), 2)], ∀ w, incFn p.1 p.2 = .ok w →
        mapGet res p.1 = some w :=
  (c6_transform_all_or_nothing [(1, 2)] incFn (by decide)).1
    (fun p _ => ⟨p.2 + 1, rfl⟩)

/-- Witness for the type-guard asymmetry at the concrete store of the
repository's type-check test. -/
theorem c7_type_guard_witness :
    StrictEMap.hasKey strictSample (goInt 3) = false :=
  (c7_type_guard_asymmetry strictSample (goInt 3) (goStr 4) (goStr 5) (goInt 6)
    (by intro p hp; simp [strictSample, EMapState.empty] at hp)
    (by intro p hp; simp [strictSample, EMapState.empty] at hp)
    (by decide) (by decide)).1

/-- Witness for the expirable-insert statement: interval 100 and a value
without the `IsExpired` capability. -/
theorem c9_expirable_insert_witness :
    GenericEMap.insert (newExpirableEMap 100) (goStr 1) (goStr 2) [] =
      .error "value type wrong" :=
  (c9_expirable_insert_capability 100 (goStr 1) (goStr 2) []).2.2.1
    (by decide) (by decide)

/-- Witness for the removal check order: empty store, absent key. -/
theorem c10_removeIndex_check_order_witness :
    removeIndex (EMapState.empty (α := Nat)) 1 2 = .error "key not exist" :=
  (c10_removeIndex_check_order EMapState.empty stKeyOnly stKeyIdx 1 2 5 9 5 9
    [9] [9] [5] strictSample (goInt 3) (goStr 4) (goStr 5) (goStr 6)
    (by decide) (by decide) (by decide) (by decide) (by decide)
    (by decide) (by decide) (by decide)).1

end EMap
